import Mathlib

/-!
Shallow embedding of the video background remover pipeline
(`video_background_remover.py`, `batch_processor.py`, `gui_app.py`)
together with theorems settling the specification claims.

Conventions of the embedding:
* the filesystem is represented by explicit `(path, content)` pairs threaded
  through the stages (the code hands data between stages only through files);
* image bytes are opaque `String`s at the pipeline level; the per-pixel
  alpha-flattening arithmetic of `create_transparent_video` is modelled
  separately on numeric channel values (`flattenChannel`), with every
  numpy float64 operation modelled exactly: each step rounds its exact
  rational result to the nearest binary64 value (ties to even, `fl64`),
  and the store into the `uint8` buffer truncates toward zero;
* external effects (video decoding, the rembg model, the `cv2.VideoWriter`,
  the `ffmpeg` subprocess) enter as explicit parameters of an environment
  record, exactly at the points where the source calls out to them;
* fallible code returns `Except String` mirroring Python exceptions.
-/

/-- Model of `os.path.join(a, b)` for a relative second component. -/
def pathJoin (a b : String) : String := a ++ ("/") ++ b

/-- Model of the Python format `f"...{i:06d}"`: decimal digits of `i`,
left-padded with zeros to at least width 6. -/
def pad6 (n : Nat) : String :=
  let s := toString n
  String.mk (List.replicate (6 - s.length) ('0')) ++ s

/-- Python truthiness of an optional integer (`None` and `0` are falsy):
this is the test used by `if max_frames and ...` in `extract_frames`. -/
def pyTruthy : Option Nat → Bool
  | none => false
  | some n => n != 0

/-- Last component of a path (`pathlib.PurePath(...).name` for paths
without a trailing slash): the characters after the last slash. -/
def pyBasename (p : String) : String :=
  String.mk (p.toList.foldl (fun acc c => if c = ('/') then [] else acc ++ [c]) [])

/-- Suffix test on strings (the effect of the recursive glob pattern
`**/*<ext>` used by `find_video_files`): the final characters of `s`
equal `ext`. -/
def strEndsWith (s ext : String) : Bool :=
  s.toList.drop (s.toList.length - ext.toList.length) == ext.toList

/-- Index of the last occurrence of a dot in a character list
(`name.rfind(chr(46))` in the `pathlib` suffix computation). -/
def lastDotIdx : List Char → Option Nat
  | [] => none
  | c :: cs =>
    match lastDotIdx cs with
    | some i => some (i + 1)
    | none => if c = ('.') then some 0 else none

/-- Model of `pathlib.Path(p).stem`: the final path component with its
suffix removed; a suffix exists when the last dot sits strictly inside
the name (`0 < i < len(name) - 1` in the `pathlib` source). -/
def pyStem (p : String) : String :=
  let b := pyBasename p
  match lastDotIdx b.toList with
  | some i => if 0 < i ∧ i + 1 < b.toList.length then String.mk (b.toList.take i) else b
  | none => b

/-- One frame file on disk: its path and its (opaque) image bytes. -/
structure FrameFile where
  path : String
  content : String
deriving DecidableEq

/-- The decodable content of a source video together with the container
metadata read by `extract_frames` (`fps`, width, height). -/
structure Video where
  frames : List String
  fps : ℚ
  width : Nat
  height : Nat
deriving DecidableEq

/-- The tuple returned by `extract_frames`:
`(frame_count, fps, width, height, extracted_frames)`. -/
structure ExtractResult where
  frame_count : Nat
  fps : ℚ
  width : Nat
  height : Nat
  extracted_frames : List FrameFile
deriving DecidableEq

/-- The `while True` loop of `extract_frames` (lines 108-120): it stops
when the decoder is exhausted (`not ret`) or when
`max_frames and frame_count >= max_frames` holds (Python truthiness:
`max_frames = None` and `max_frames = 0` never stop the loop); otherwise
it writes `frame_{i:06d}.png` and continues with `frame_count + 1`. -/
def extractLoop (framesDir : String) : List String → Option Nat → Nat → List FrameFile
  | [], _, _ => []
  | content :: rest, mf, i =>
    if pyTruthy mf = true ∧ mf.getD 0 ≤ i then []
    else
      { path := pathJoin framesDir ("frame_" ++ pad6 i ++ ".png"), content := content }
        :: extractLoop framesDir rest mf (i + 1)

/-- `VideoBackgroundRemover.extract_frames` (lines 68-125) on an already
opened video: extracts frames into `<output_dir>/frames`, and returns the
loop counter (number of frames written), the container metadata, and the
list of written frame files. -/
def extractFrames (v : Video) (outputDir : String) (maxFrames : Option Nat) : ExtractResult :=
  let framesDir := pathJoin outputDir ("frames")
  let extracted := extractLoop framesDir v.frames maxFrames 0
  { frame_count := extracted.length
    fps := v.fps
    width := v.width
    height := v.height
    extracted_frames := extracted }

/-- The segmentation capability `rembg.remove` with a fixed session:
image bytes in, image bytes out, or a raised exception. -/
def Seg : Type := String → Except String String

/-- `VideoBackgroundRemover.remove_background_from_frame` (lines 127-149):
reads the frame file, applies `remove`, writes the result to `output_path`;
an exception from the segmentation call is logged and re-raised. -/
def removeBackgroundFromFrame (seg : Seg) (frame : FrameFile) (outputPath : String) :
    Except String FrameFile :=
  match seg frame.content with
  | Except.ok out => Except.ok { path := outputPath, content := out }
  | Except.error e => Except.error e

/-- The `for i, frame_path in enumerate(frames_list)` loop of
`process_frames` (lines 170-180), starting at index `i`. The first
component collects the output files written so far; the second is the
first raised error, if any (at which point the loop aborts, so nothing
after the failing frame is written). -/
def processFramesAux (seg : Seg) (processedDir : String) :
    List FrameFile → Nat → List FrameFile × Option String
  | [], _ => ([], none)
  | frame :: rest, i =>
    let outputPath := pathJoin processedDir ("processed_frame_" ++ pad6 i ++ ".png")
    match removeBackgroundFromFrame seg frame outputPath with
    | Except.error e => ([], some e)
    | Except.ok written =>
      let tail := processFramesAux seg processedDir rest (i + 1)
      (written :: tail.1, tail.2)

/-- `VideoBackgroundRemover.process_frames` (lines 151-184): processes the
frames in order into `<output_dir>/processed_frames`, returning the files
written and the propagated error, if any. -/
def processFrames (seg : Seg) (framesList : List FrameFile) (outputDir : String) :
    List FrameFile × Option String :=
  processFramesAux seg (pathJoin outputDir ("processed_frames")) framesList 0

/-- An exact rational carried as a plain integer pair `n / d` (with
`d ≠ 0` at every use site), kept unnormalized so that every operation on
it is elementary integer arithmetic. Used to model the numpy float64
values of `create_transparent_video` exactly. -/
structure RatPair where
  n : ℤ
  d : ℕ

/-- Scale a nonnegative value up by powers of two until its significand
reaches `2 ^ 52`, tracking the binary exponent. The recursion is
fuel-bounded to stay structural; 200 doublings cover every value that
arises in the flattening computation. -/
def rnScaleUp : Nat → RatPair → ℤ → RatPair × ℤ
  | 0, m, e => (m, e)
  | fuel + 1, m, e =>
    if m.n < 4503599627370496 * (m.d : ℤ) then
      rnScaleUp fuel { n := m.n * 2, d := m.d } (e - 1)
    else (m, e)

/-- Scale a value down by powers of two until the significand is below
`2 ^ 53`. -/
def rnScaleDown : Nat → RatPair → ℤ → RatPair × ℤ
  | 0, m, e => (m, e)
  | fuel + 1, m, e =>
    if 9007199254740992 * (m.d : ℤ) ≤ m.n then
      rnScaleDown fuel { n := m.n, d := m.d * 2 } (e + 1)
    else (m, e)

/-- Round a nonnegative significand `m.n / m.d` to the nearest integer,
ties going to the even neighbour: the fractional part
`r = m.n / m.d - fl` is compared with `1/2` by comparing `2 * r * m.d`
with `m.d`. -/
def roundNearestEven (m : RatPair) : ℤ :=
  let fl := m.n / (m.d : ℤ)
  let r2 := 2 * (m.n - fl * (m.d : ℤ))
  if r2 < (m.d : ℤ) then fl
  else if (m.d : ℤ) < r2 then fl + 1
  else if fl % 2 = 0 then fl else fl + 1

/-- Binary64 rounding of a positive value: normalize the significand
into `[2^52, 2^53)` and round it to the nearest integer, ties to even. -/
def fl64pos (q : RatPair) : RatPair :=
  let u := rnScaleUp 200 q 0
  let p := rnScaleDown 200 u.1 u.2
  let r := roundNearestEven p.1
  if 0 ≤ p.2 then { n := r * ((2 ^ p.2.toNat : ℕ) : ℤ), d := 1 }
  else { n := r, d := 2 ^ (-p.2).toNat }

/-- IEEE binary64 rounding (round to nearest, ties to even) of an exact
value: the semantics of each numpy float64 operation in
`create_transparent_video`. Every value arising there lies well inside
the normal range, so only the 53-bit significand matters (no overflow,
underflow or non-finite values can occur). -/
def fl64 (q : RatPair) : RatPair :=
  if q.n = 0 then { n := 0, d := 1 }
  else if q.n < 0 then
    let r := fl64pos { n := -q.n, d := q.d }
    { n := -r.n, d := r.d }
  else fl64pos q

/-- The per-channel flattening of `create_transparent_video`
(lines 217-222): `alpha = a / 255.0` and
`img[:, :, c] = img[:, :, c] * alpha + 255 * (1 - alpha)`, evaluated in
numpy float64 — each elementwise operation (the division, the two
multiplications, the subtraction and the addition) rounds its exact
result to the nearest binary64 value — and stored back into the `uint8`
array by the C cast, which truncates toward zero. -/
def flattenChannel (src a : Nat) : Nat :=
  let alpha := fl64 { n := (a : ℤ), d := 255 }
  let t1 := fl64 { n := (src : ℤ) * alpha.n, d := alpha.d }
  let t2 := fl64 { n := (alpha.d : ℤ) - alpha.n, d := alpha.d }
  let t3 := fl64 { n := 255 * t2.n, d := t2.d }
  let x := fl64 { n := t1.n * (t3.d : ℤ) + t3.n * (t1.d : ℤ), d := t1.d * t3.d }
  Int.toNat (x.n / (x.d : ℤ))

/-- The whole-pixel form of the flattening: a 4-channel (RGBA) pixel is
mapped to its 3 colour channels flattened against white, the alpha
channel being dropped by `img = img[:, :, :3]` (line 222). -/
def flattenPixel (px : Fin 4 → Nat) : Fin 3 → Nat :=
  fun c => flattenChannel (px c.castSucc) (px 3)

/-- `VideoBackgroundRemover.create_transparent_video` (lines 186-232) as
seen by the orchestrator: it raises iff the `cv2.VideoWriter` cannot be
opened (`writerOpens` is the environment's answer to `out.isOpened()`);
otherwise it writes the flattened frames and returns. -/
def createTransparentVideo (writerOpens : Bool) (processed : List FrameFile)
    (outputPath : String) : Except String Unit :=
  if writerOpens then Except.ok () else Except.error ("cannot create video file")

/-- `VideoBackgroundRemover.create_webm_with_transparency` (lines 234-251):
`processed_frames[0]` raises an index error on an empty list; otherwise
the `ffmpeg` command is run through `os.system`, whose exit status
(`ffmpegExit`) is discarded by the source, so a failing transcoder does
not raise. -/
def createWebmWithTransparency (ffmpegExit : Nat) (processed : List FrameFile)
    (outputPath : String) : Except String Unit :=
  match processed with
  | [] => Except.error ("list index out of range")
  | _ :: _ => Except.ok ()

/-- The external world of one `process_video` run: the source video (or an
open failure), the segmentation capability, whether the opaque video
writer opens, and the exit status of the `ffmpeg` subprocess. -/
structure PvEnv where
  video : Except String Video
  seg : Seg
  writerOpens : Bool
  ffmpegExit : Nat

/-- The `result` dictionary returned by `process_video` (lines 295-305). -/
structure PvResult where
  input_video : String
  output_dir : String
  frame_count : Nat
  fps : ℚ
  resolution : Nat × Nat
  output_mp4 : String
  output_webm : Option String
  frames_dir : String
  processed_frames_dir : String
deriving DecidableEq

/-- `VideoBackgroundRemover.process_video` (lines 253-318): extract,
segment, assemble, optionally transcode to WebM (non-fatally), and return
the result record; any exception from the first three stages is logged
and re-raised. -/
def processVideo (env : PvEnv) (inputVideo outputDir : String) (maxFrames : Option Nat)
    (createWebm : Bool) : Except String PvResult :=
  match env.video with
  | Except.error _ => Except.error ("cannot open video file: " ++ inputVideo)
  | Except.ok v =>
    let er := extractFrames v outputDir maxFrames
    match processFrames env.seg er.extracted_frames outputDir with
    | (_, some e) => Except.error e
    | (processed, none) =>
      let output_mp4 := pathJoin outputDir ("output_transparent.mp4")
      match createTransparentVideo env.writerOpens processed output_mp4 with
      | Except.error e => Except.error e
      | Except.ok _ =>
        let webmPath := pathJoin outputDir ("output_transparent.webm")
        let output_webm :=
          if createWebm then
            match createWebmWithTransparency env.ffmpegExit processed webmPath with
            | Except.ok _ => some webmPath
            | Except.error _ => none
          else none
        Except.ok
          { input_video := inputVideo
            output_dir := outputDir
            frame_count := er.frame_count
            fps := er.fps
            resolution := (er.width, er.height)
            output_mp4 := output_mp4
            output_webm := output_webm
            frames_dir := pathJoin outputDir ("frames")
            processed_frames_dir := pathJoin outputDir ("processed_frames") }

/-- One entry of `self.results` in `BatchVideoProcessor`: the result
dictionary built by `process_single_video` (lines 84-118). On success it
wraps the `process_video` record; on failure it carries the stringified
error. `processing_time` is the measured wall-clock duration. -/
structure SingleResult where
  status : String
  error : Option String
  processing_time : Nat
  video_name : String
  input_video : String
  output_dir : String
  pv : Option PvResult
deriving DecidableEq

/-- `BatchVideoProcessor.process_single_video` (lines 66-118): derives the
per-video output directory `<output_base_dir>/<stem>`, runs
`process_video`, and converts any raised exception into a record with
`status = "failed"` and the error message — the exception never
propagates out of this function. `procTime` is the elapsed time
measured by the two `time.time()` calls. -/
def processSingleVideo (env : PvEnv) (procTime : Nat) (maxFrames : Option Nat)
    (videoPath outputBaseDir : String) (createWebm : Bool) : SingleResult :=
  let videoName := pyStem videoPath
  let outputDir := pathJoin outputBaseDir videoName
  match processVideo env videoPath outputDir maxFrames createWebm with
  | Except.ok r =>
    { status := ("success"), error := none, processing_time := procTime
      video_name := videoName, input_video := videoPath, output_dir := outputDir
      pv := some r }
  | Except.error e =>
    { status := ("failed"), error := some e, processing_time := procTime
      video_name := videoName, input_video := videoPath, output_dir := outputDir
      pv := none }

/-- The default extension list of `find_video_files` (line 46). -/
def defaultExtensions : List String :=
  [(".mp4"), (".avi"), (".mov"), (".mkv"), (".wmv"), (".flv"), (".webm")]

/-- `BatchVideoProcessor.find_video_files` (lines 34-64): for a directory
modelled as its recursive file listing `dirFiles`, collect for each
extension the files matching the glob `**/*<ext>` (suffix match), then
`sorted(list(set(...)))`: deduplicate and sort lexicographically. An
absent input directory yields the empty list. -/
def findVideoFiles (dirExists : Bool) (dirFiles : List String)
    (extensions : Option (List String)) : List String :=
  let exts := extensions.getD defaultExtensions
  if dirExists = false then []
  else
    let collected :=
      exts.foldl (fun acc ext => acc ++ dirFiles.filter (fun f => strEndsWith f ext)) []
    List.insertionSort (fun a b => a ≤ b) collected.dedup

/-- The statistics dictionary returned by `process_batch` (lines 161-167);
`results` is the processor's `self.results` list after the run. -/
structure BatchStats where
  total : Nat
  success : Nat
  failed : Nat
  results : List SingleResult
deriving DecidableEq

/-- `BatchVideoProcessor.process_batch` (lines 120-178): discover video
files, return zeroed statistics if none; otherwise process each file in
order, appending every per-file record to `self.results` (initial value
`st`, which a fresh processor sets to `[]` and which persists across
calls), and compute `success` by counting over `self.results` and
`failed` as its complement, while `total` counts only the files just
discovered. `envOf` and `timeOf` give each file its external world and
its measured duration. -/
def processBatch (envOf : String → PvEnv) (timeOf : String → Nat)
    (maxFrames : Option Nat) (st : List SingleResult) (dirExists : Bool)
    (dirFiles : List String) (outputDir : String) (createWebm : Bool)
    (extensions : Option (List String)) : BatchStats :=
  let videoFiles := findVideoFiles dirExists dirFiles extensions
  if videoFiles.isEmpty then { total := 0, success := 0, failed := 0, results := [] }
  else
    let results := st ++ videoFiles.map
      (fun p => processSingleVideo (envOf p) (timeOf p) maxFrames p outputDir createWebm)
    let successCount := (results.filter (fun r => r.status == "success")).length
    let failedCount := results.length - successCount
    { total := videoFiles.length, success := successCount, failed := failedCount
      results := results }

/-- The GUI state touched by the stop action: the `self.processing` flag
and the progress label (`gui_app.py`). -/
structure GuiState where
  processing : Bool
  progressText : String
deriving DecidableEq

/-- `VideoBackgroundRemoverGUI.stop_processing` (lines 316-320): sets the
flag to `False` and the label to a stopping message; the source notes
that the actual stop logic would have to live in the processing thread. -/
def stopProcessing (g : GuiState) : GuiState :=
  { g with processing := false, progressText := ("stopping") }

/-- The frame loop run by `process_video_thread` (lines 322-349), which
calls `process_video` and hence the `process_frames` loop, with `flag`
giving the value of the GUI's `processing` flag observed at each frame
boundary. Neither `process_video_thread` nor `process_frames` ever reads
the flag, so the `flag` argument does not occur in the body: the number
of frames processed is independent of any stop request. -/
def framesProcessedUnderFlag (flag : Nat → Bool) (seg : Seg)
    (framesList : List FrameFile) (outputDir : String) : Nat :=
  (processFrames seg framesList outputDir).1.length

/-! Helper lemmas about the frame-processing loop. -/

/-- Unfolding equation for the loop when the head frame segments. -/
theorem processFramesAux_cons_ok (seg : Seg) (pd : String) (f : FrameFile)
    (rest : List FrameFile) (i : Nat) (out : String)
    (hseg : seg f.content = Except.ok out) :
    processFramesAux seg pd (f :: rest) i =
      (({ path := pathJoin pd ("processed_frame_" ++ pad6 i ++ ".png"),
          content := out } : FrameFile) :: (processFramesAux seg pd rest (i + 1)).1,
        (processFramesAux seg pd rest (i + 1)).2) := by
  simp [processFramesAux, removeBackgroundFromFrame, hseg]

/-- Unfolding equation for the loop when the head frame raises. -/
theorem processFramesAux_cons_err (seg : Seg) (pd : String) (f : FrameFile)
    (rest : List FrameFile) (i : Nat) (e : String)
    (hseg : seg f.content = Except.error e) :
    processFramesAux seg pd (f :: rest) i = ([], some e) := by
  simp [processFramesAux, removeBackgroundFromFrame, hseg]

/-- Characterization of the loop's output at position `k`: it exists
whenever `k` is below the output length, is named
`processed_frame_{i+k:06d}.png`, and is the successful removal result of
the input frame at the same position `k`. -/
theorem processFramesAux_out (seg : Seg) (pd : String) (l : List FrameFile)
    (i k : Nat) (hk : k < (processFramesAux seg pd l i).1.length) :
    ∃ w : FrameFile, (processFramesAux seg pd l i).1[k]? = some w ∧
      w.path = pathJoin pd ("processed_frame_" ++ pad6 (i + k) ++ ".png") ∧
      ∃ f : FrameFile, l[k]? = some f ∧
        removeBackgroundFromFrame seg f w.path = Except.ok w := by
  induction l generalizing i k with
  | nil => simp [processFramesAux] at hk
  | cons f rest ih =>
    cases hseg : seg f.content with
    | error e =>
      rw [processFramesAux_cons_err seg pd f rest i e hseg] at hk
      simp at hk
    | ok out =>
      rw [processFramesAux_cons_ok seg pd f rest i out hseg] at hk ⊢
      cases k with
      | zero =>
        refine ⟨{ path := pathJoin pd ("processed_frame_" ++ pad6 i ++ ".png"),
                  content := out }, by simp, by simp, f, by simp, ?_⟩
        simp [removeBackgroundFromFrame, hseg]
      | succ k =>
        simp only [List.length_cons, Nat.succ_lt_succ_iff] at hk
        obtain ⟨w, hw, hpath, g, hg, hder⟩ := ih (i + 1) k hk
        have harith : i + 1 + k = i + (k + 1) := by omega
        rw [harith] at hpath
        exact ⟨w, by simpa using hw, hpath, g, by simpa using hg, hder⟩

/-- When every frame segments successfully, the loop raises nothing and
produces exactly one output per input. -/
theorem processFramesAux_ok (seg : Seg) (pd : String) (l : List FrameFile) (i : Nat)
    (h : ∀ f ∈ l, (seg f.content).isOk = true) :
    (processFramesAux seg pd l i).2 = none ∧
    (processFramesAux seg pd l i).1.length = l.length := by
  induction l generalizing i with
  | nil => simp [processFramesAux]
  | cons f rest ih =>
    have hf : (seg f.content).isOk = true := h f (by simp)
    cases hseg : seg f.content with
    | error e => rw [hseg] at hf; simp [Except.isOk, Except.toBool] at hf
    | ok out =>
      have ⟨h1, h2⟩ := ih (i + 1) (fun g hg => h g (by simp [hg]))
      rw [processFramesAux_cons_ok seg pd f rest i out hseg]
      simp [h1, h2]

/-- Fail-fast: if the segmentation raises on the frame at position `j`,
the loop writes at most `j` outputs and ends in a raised error. -/
theorem processFramesAux_fail (seg : Seg) (pd : String) (l : List FrameFile)
    (i j : Nat) (f : FrameFile) (hj : l[j]? = some f)
    (hfail : (seg f.content).isOk = false) :
    (processFramesAux seg pd l i).1.length ≤ j ∧
    ((processFramesAux seg pd l i).2).isSome = true := by
  induction l generalizing i j with
  | nil => simp at hj
  | cons g rest ih =>
    cases hseg : seg g.content with
    | error e =>
      rw [processFramesAux_cons_err seg pd g rest i e hseg]
      simp
    | ok out =>
      cases j with
      | zero =>
        have hgf : g = f := by simpa using hj
        subst hgf
        rw [hseg] at hfail
        simp [Except.isOk, Except.toBool] at hfail
      | succ j =>
        have hj2 : rest[j]? = some f := by simpa using hj
        obtain ⟨h1, h2⟩ := ih (i + 1) j hj2
        rw [processFramesAux_cons_ok seg pd g rest i out hseg]
        constructor
        · simpa using Nat.succ_le_succ h1
        · simpa using h2

/-! Helper lemmas about frame extraction. -/

/-- Without a cap (`max_frames = None`) the loop writes every decodable
frame. -/
theorem extractLoop_length_none (dir : String) (l : List String) (i : Nat) :
    (extractLoop dir l none i).length = l.length := by
  induction l generalizing i with
  | nil => simp [extractLoop]
  | cons c rest ih => simp [extractLoop, pyTruthy, ih]

/-- With the cap `0` the truthiness test is false, so the loop also
writes every decodable frame. -/
theorem extractLoop_length_zero (dir : String) (l : List String) (i : Nat) :
    (extractLoop dir l (some 0) i).length = l.length := by
  induction l generalizing i with
  | nil => simp [extractLoop]
  | cons c rest ih => simp [extractLoop, pyTruthy, ih]

/-- With a positive cap `M` and loop counter starting at `i`, the loop
writes `min (number of decodable frames) (M - i)` frames. -/
theorem extractLoop_length_pos (dir : String) (l : List String) (M i : Nat)
    (hM : M ≠ 0) :
    (extractLoop dir l (some M) i).length = min l.length (M - i) := by
  induction l generalizing i with
  | nil => simp [extractLoop]
  | cons c rest ih =>
    by_cases hi : M ≤ i
    · have hstop : (pyTruthy (some M) = true ∧ (some M).getD 0 ≤ i) := by
        simp [pyTruthy, hM, hi]
      simp only [extractLoop, if_pos hstop]
      simp
      omega
    · have hgo : ¬ (pyTruthy (some M) = true ∧ (some M).getD 0 ≤ i) := by
        simp [pyTruthy, hM]
        omega
      simp only [extractLoop, if_neg hgo]
      simp only [List.length_cons, ih (i + 1)]
      omega

/-! Helper lemmas about the per-video orchestrator. -/

/-- An error raised inside `process_frames` propagates out of
`process_video` unchanged. -/
theorem processVideo_error_of_fail (env : PvEnv) (v : Video)
    (hv : env.video = Except.ok v) (inputVideo outputDir : String)
    (mf : Option Nat) (cw : Bool) (e : String)
    (hpf : (processFrames env.seg (extractFrames v outputDir mf).extracted_frames
      outputDir).2 = some e) :
    processVideo env inputVideo outputDir mf cw = Except.error e := by
  obtain ⟨w, err⟩ :
      ∃ w err, processFrames env.seg (extractFrames v outputDir mf).extracted_frames
        outputDir = (w, err) := ⟨_, _, rfl⟩
  obtain ⟨err, hp⟩ := err
  rw [hp] at hpf
  simp only at hpf
  subst hpf
  simp [processVideo, hv, hp]

/-- When frame processing raises nothing and the opaque writer opens,
`process_video` returns the result record; its `output_webm` is the WebM
path when requested and the processed list is nonempty (the `ffmpeg`
exit status is never consulted), and `None` otherwise. -/
theorem processVideo_ok_spec (env : PvEnv) (v : Video)
    (hv : env.video = Except.ok v) (inputVideo outputDir : String)
    (mf : Option Nat) (cw : Bool)
    (hw : env.writerOpens = true)
    (hpf : (processFrames env.seg (extractFrames v outputDir mf).extracted_frames
      outputDir).2 = none) :
    processVideo env inputVideo outputDir mf cw = Except.ok
      { input_video := inputVideo
        output_dir := outputDir
        frame_count := (extractFrames v outputDir mf).frame_count
        fps := v.fps
        resolution := (v.width, v.height)
        output_mp4 := pathJoin outputDir ("output_transparent.mp4")
        output_webm :=
          if cw = true ∧ (processFrames env.seg
              (extractFrames v outputDir mf).extracted_frames outputDir).1 ≠ []
          then some (pathJoin outputDir ("output_transparent.webm")) else none
        frames_dir := pathJoin outputDir ("frames")
        processed_frames_dir := pathJoin outputDir ("processed_frames") } := by
  obtain ⟨w, hp⟩ :
      ∃ w, processFrames env.seg (extractFrames v outputDir mf).extracted_frames
        outputDir = (w, none) := by
    refine ⟨(processFrames env.seg (extractFrames v outputDir mf).extracted_frames
      outputDir).1, ?_⟩
    rw [← hpf]
  rw [hp]
  simp only [processVideo, hv, hp, createTransparentVideo, hw, if_true]
  cases cw with
  | false => simp [extractFrames]
  | true =>
    cases w with
    | nil => simp [createWebmWithTransparency, extractFrames]
    | cons a rest => simp [createWebmWithTransparency, extractFrames]

/-! Helper lemmas about batch discovery. -/

/-- Membership in the extension-collection fold of `find_video_files`. -/
theorem mem_collectExts (exts files acc : List String) (x : String) :
    x ∈ exts.foldl (fun a ext => a ++ files.filter (fun f => strEndsWith f ext)) acc ↔
      x ∈ acc ∨ ∃ ext, ext ∈ exts ∧ x ∈ files ∧ strEndsWith x ext = true := by
  induction exts generalizing acc with
  | nil => simp
  | cons e rest ih =>
    rw [List.foldl_cons, ih]
    simp only [List.mem_append, List.mem_filter, List.mem_cons]
    constructor
    · rintro ((hx | ⟨hf, he⟩) | ⟨ext, hext, hf, he⟩)
      · exact Or.inl hx
      · exact Or.inr ⟨e, Or.inl rfl, hf, he⟩
      · exact Or.inr ⟨ext, Or.inr hext, hf, he⟩
    · rintro (hx | ⟨ext, (rfl | hext), hf, he⟩)
      · exact Or.inl (Or.inl hx)
      · exact Or.inl (Or.inr ⟨hf, he⟩)
      · exact Or.inr ⟨ext, hext, hf, he⟩

/-- The collection fold respects permutations of the directory listing. -/
theorem collectExts_perm (exts : List String) (files files2 acc acc2 : List String)
    (h : files.Perm files2) (hacc : acc.Perm acc2) :
    (exts.foldl (fun a ext => a ++ files.filter (fun f => strEndsWith f ext)) acc).Perm
      (exts.foldl (fun a ext => a ++ files2.filter (fun f => strEndsWith f ext)) acc2) := by
  induction exts generalizing acc acc2 with
  | nil => simpa using hacc
  | cons e rest ih =>
    rw [List.foldl_cons, List.foldl_cons]
    exact ih (acc ++ files.filter (fun f => strEndsWith f e))
      (acc2 ++ files2.filter (fun f => strEndsWith f e))
      (hacc.append (h.filter (fun f => strEndsWith f e)))

/-! Concrete instances used by witnesses and counterexamples. -/

/-- A segmentation capability that succeeds on every input. -/
def demoSeg : Seg := fun s => Except.ok (("seg:") ++ s)

/-- A segmentation capability that raises exactly on the image bytes
`"b"`. -/
def demoSegFailB : Seg :=
  fun s => if s == ("b") then Except.error ("boom") else Except.ok (("seg:") ++ s)

/-- A three-frame source video. -/
def demoVideo3 : Video :=
  { frames := [("a"), ("b"), ("c")], fps := 10, width := 64, height := 48 }

/-- A one-frame source video. -/
def demoVideo1 : Video := { frames := [("x")], fps := 10, width := 4, height := 4 }

/-- A source video that opens but has zero decodable frames. -/
def demoVideo0 : Video := { frames := [], fps := 10, width := 64, height := 48 }

/-- A fully healthy environment for the three-frame video. -/
def demoEnvOk : PvEnv :=
  { video := Except.ok demoVideo3, seg := demoSeg, writerOpens := true, ffmpegExit := 0 }

/-- An environment whose segmentation raises on the second frame. -/
def demoEnvFailB : PvEnv :=
  { video := Except.ok demoVideo3, seg := demoSegFailB, writerOpens := true, ffmpegExit := 0 }

/-- An environment for a video with zero decodable frames. -/
def demoEnvZero : PvEnv :=
  { video := Except.ok demoVideo0, seg := demoSeg, writerOpens := true, ffmpegExit := 0 }

/-- An environment in which the external `ffmpeg` transcoder fails with a
nonzero exit status. -/
def demoEnvFfmpegFail : PvEnv :=
  { video := Except.ok demoVideo1, seg := demoSeg, writerOpens := true, ffmpegExit := 1 }

/-- An environment whose source video cannot be opened. -/
def demoEnvOpenFail : PvEnv :=
  { video := Except.error ("unreadable"), seg := demoSeg, writerOpens := true, ffmpegExit := 0 }

/-- Three extracted frame files used by the GUI cancellation analysis. -/
def demoFrames3 : List FrameFile :=
  [{ path := ("f0"), content := ("a") },
   { path := ("f1"), content := ("b") },
   { path := ("f2"), content := ("c") }]

/-! Claim theorems. -/

/-- C1: if the background-removal step raises on the frame at index `j`
of the extracted sequence, then `process_frames` writes at most `j`
outputs (so none with index > j, outputs being named by their position),
the error propagates out of `process_video` as the same raised error, and
the job's recorded outcome is a failure. -/
theorem claim_C1 (env : PvEnv) (v : Video) (videoPath outputBaseDir : String)
    (procTime : Nat) (maxFrames : Option Nat) (createWebm : Bool)
    (j : Nat) (f : FrameFile)
    (hv : env.video = Except.ok v)
    (hj : ((extractFrames v (pathJoin outputBaseDir (pyStem videoPath))
      maxFrames).extracted_frames)[j]? = some f)
    (hfail : (env.seg f.content).isOk = false) :
    ((processFrames env.seg
        (extractFrames v (pathJoin outputBaseDir (pyStem videoPath)) maxFrames).extracted_frames
        (pathJoin outputBaseDir (pyStem videoPath))).1.length ≤ j) ∧
    (∃ e,
      (processFrames env.seg
        (extractFrames v (pathJoin outputBaseDir (pyStem videoPath)) maxFrames).extracted_frames
        (pathJoin outputBaseDir (pyStem videoPath))).2 = some e ∧
      processVideo env videoPath (pathJoin outputBaseDir (pyStem videoPath)) maxFrames createWebm
        = Except.error e) ∧
    (processSingleVideo env procTime maxFrames videoPath outputBaseDir createWebm).status
      = ("failed") := by
  obtain ⟨hlen, hsome⟩ := processFramesAux_fail env.seg
    (pathJoin (pathJoin outputBaseDir (pyStem videoPath)) ("processed_frames"))
    (extractFrames v (pathJoin outputBaseDir (pyStem videoPath)) maxFrames).extracted_frames
    0 j f hj hfail
  obtain ⟨e, he⟩ := Option.isSome_iff_exists.mp hsome
  have hpf : (processFrames env.seg
      (extractFrames v (pathJoin outputBaseDir (pyStem videoPath)) maxFrames).extracted_frames
      (pathJoin outputBaseDir (pyStem videoPath))).2 = some e := by
    simpa [processFrames] using he
  have herr := processVideo_error_of_fail env v hv videoPath
    (pathJoin outputBaseDir (pyStem videoPath)) maxFrames createWebm e hpf
  refine ⟨by simpa [processFrames] using hlen, ⟨e, hpf, herr⟩, ?_⟩
  simp [processSingleVideo, herr]

/-- Witness for C1 at a concrete job: the second frame (index 1, bytes
`"b"`) raises, and the job's recorded outcome is `"failed"`. -/
theorem claim_C1_witness :
    (((extractFrames demoVideo3 (pathJoin ("out") (pyStem ("v.mp4")))
        none).extracted_frames)[1]?
      = some { path := pathJoin (pathJoin (pathJoin ("out") (pyStem ("v.mp4"))) ("frames"))
                 ("frame_" ++ pad6 1 ++ ".png"),
               content := ("b") }) ∧
    ((demoEnvFailB.seg ("b")).isOk = false) ∧
    (processSingleVideo demoEnvFailB 5 none ("v.mp4") ("out") true).status = ("failed") :=
  ⟨rfl, rfl,
    (claim_C1 demoEnvFailB demoVideo3 ("v.mp4") ("out") 5 none true 1
      { path := pathJoin (pathJoin (pathJoin ("out") (pyStem ("v.mp4"))) ("frames"))
          ("frame_" ++ pad6 1 ++ ".png"),
        content := ("b") }
      rfl rfl rfl).2.2⟩

/-- C2: on an input sequence of `K` frame files that all segment
successfully, `process_frames` returns exactly `K` outputs in order: no
error is raised, the output at index `i` is named
`processed_frame_{i:06d}.png`, and it is the removal result of the input
at the same index `i`. -/
theorem claim_C2 (seg : Seg) (framesList : List FrameFile) (outputDir : String)
    (hok : ∀ f ∈ framesList, (seg f.content).isOk = true) :
    (processFrames seg framesList outputDir).2 = none ∧
    (processFrames seg framesList outputDir).1.length = framesList.length ∧
    (∀ k, k < framesList.length →
      ∃ w : FrameFile, (processFrames seg framesList outputDir).1[k]? = some w ∧
        w.path = pathJoin (pathJoin outputDir ("processed_frames"))
          ("processed_frame_" ++ pad6 k ++ ".png") ∧
        ∃ f : FrameFile, framesList[k]? = some f ∧
          removeBackgroundFromFrame seg f w.path = Except.ok w) := by
  obtain ⟨h1, h2⟩ :=
    processFramesAux_ok seg (pathJoin outputDir ("processed_frames")) framesList 0 hok
  refine ⟨h1, h2, ?_⟩
  intro k hk
  have hk2 : k < (processFramesAux seg (pathJoin outputDir ("processed_frames"))
      framesList 0).1.length := by rw [h2]; exact hk
  have hout := processFramesAux_out seg (pathJoin outputDir ("processed_frames"))
    framesList 0 k hk2
  simpa [processFrames] using hout

/-- Witness for C2 at a concrete three-frame job: no error, three
outputs, and the middle output is the removal result of the middle
input. -/
theorem claim_C2_witness :
    (∀ f ∈ demoFrames3, (demoSeg f.content).isOk = true) ∧
    (processFrames demoSeg demoFrames3 ("out")).2 = none ∧
    (processFrames demoSeg demoFrames3 ("out")).1.length = demoFrames3.length :=
  ⟨by decide,
    (claim_C2 demoSeg demoFrames3 ("out") (by decide)).1,
    (claim_C2 demoSeg demoFrames3 ("out") (by decide)).2.1⟩

/-- C3 (amended): for every cap `M ≥ 1` set through `max_frames`, if
`M` is less than the number of decodable frames then extraction stops
after exactly `M` frames and reports `M`; if `M` is at least that number
it extracts everything and reports the full count. (The original claim
also covered `M = 0`, where the code treats the cap as unset.) -/
theorem claim_C3 (v : Video) (outputDir : String) (M : Nat) (hM : 1 ≤ M) :
    (M < v.frames.length →
      (extractFrames v outputDir (some M)).frame_count = M ∧
      (extractFrames v outputDir (some M)).extracted_frames.length = M) ∧
    (v.frames.length ≤ M →
      (extractFrames v outputDir (some M)).frame_count = v.frames.length ∧
      (extractFrames v outputDir (some M)).extracted_frames.length = v.frames.length) := by
  have hlen := extractLoop_length_pos (pathJoin outputDir ("frames")) v.frames M 0 (by omega)
  constructor <;> intro h <;>
    constructor <;> simp only [extractFrames, hlen] <;> omega

/-- Witness for C3: a three-frame video capped at `M = 2` yields exactly
2 frames, and capped at `M = 5` yields all 3. -/
theorem claim_C3_witness :
    (1 ≤ 2) ∧
    (extractFrames demoVideo3 ("out") (some 2)).frame_count = 2 ∧
    (extractFrames demoVideo3 ("out") (some 5)).frame_count = 3 :=
  ⟨by decide,
    ((claim_C3 demoVideo3 ("out") 2 (by decide)).1 (by decide)).1,
    ((claim_C3 demoVideo3 ("out") 5 (by decide)).2 (by decide)).1⟩

/-- Counterexample for C3 as stated: the claim quantifies over every set
cap including `M = 0`, demanding zero extracted frames when `0 < N`; but
`max_frames = 0` is falsy in `if max_frames and ...`, so the code treats
it as no cap and extracts every frame: the one-frame video yields count 1,
not 0. -/
theorem claim_C3_cex :
    0 < demoVideo1.frames.length ∧
    (extractFrames demoVideo1 ("out") (some 0)).frame_count = 1 ∧
    ¬ (extractFrames demoVideo1 ("out") (some 0)).frame_count = 0 := by
  refine ⟨by decide, rfl, by decide⟩

/-- C4 (amended): a job whose extraction yields zero frames is not
failed explicitly; when the opaque writer opens, `process_video` returns
a success record with `frame_count = 0` (and an absent WebM output,
because the transcoder step raises an index error on the empty frame
list, which the orchestrator swallows). There is no "no frames
extracted" check in the code. -/
theorem claim_C4 (env : PvEnv) (v : Video) (inputVideo outputDir : String)
    (maxFrames : Option Nat) (createWebm : Bool)
    (hv : env.video = Except.ok v) (hz : v.frames = [])
    (hw : env.writerOpens = true) :
    ∃ r : PvResult,
      processVideo env inputVideo outputDir maxFrames createWebm = Except.ok r ∧
      r.frame_count = 0 ∧ r.output_webm = none ∧
      r.output_mp4 = pathJoin outputDir ("output_transparent.mp4") := by
  have hext : (extractFrames v outputDir maxFrames).extracted_frames = [] := by
    simp [extractFrames, hz, extractLoop]
  have hpf : processFrames env.seg
      (extractFrames v outputDir maxFrames).extracted_frames outputDir = ([], none) := by
    rw [hext]
    simp [processFrames, processFramesAux]
  have hok := processVideo_ok_spec env v hv inputVideo outputDir maxFrames createWebm hw
    (by rw [hpf])
  refine ⟨_, hok, ?_, ?_, rfl⟩
  · simp [extractFrames, hz, extractLoop]
  · simp [hpf]

/-- Witness for C4 (amended) at the concrete zero-frame environment. -/
theorem claim_C4_witness :
    demoEnvZero.video = Except.ok demoVideo0 ∧
    ∃ r : PvResult,
      processVideo demoEnvZero ("in.mp4") ("out") none true = Except.ok r ∧
      r.frame_count = 0 ∧ r.output_webm = none ∧
      r.output_mp4 = pathJoin ("out") ("output_transparent.mp4") :=
  ⟨rfl, claim_C4 demoEnvZero demoVideo0 ("in.mp4") ("out") none true rfl rfl rfl⟩

/-- Counterexample for C4 as stated: the claim demands a failure outcome
carrying a "no frames extracted" error whenever extraction yields zero
frames; on the zero-frame environment the run instead succeeds (`isOk`)
and reports a zero frame count. -/
theorem claim_C4_cex :
    (processVideo demoEnvZero ("in.mp4") ("out") none true).isOk = true ∧
    (processVideo demoEnvZero ("in.mp4") ("out") none true).toOption.map
      PvResult.frame_count = some 0 :=
  ⟨rfl, rfl⟩

/-- C5 (amended): when the job reaches the alpha-true step (all frames
segmented, writer open, WebM requested), the job's outcome is a success
with the opaque MP4 path present, whatever the external transcoder's exit
status; and the result reports the WebM output as absent exactly when
the step raised a Python exception (empty processed-frame list). A mere
nonzero transcoder exit status is not detected, since the `os.system`
return value is discarded, so in that case `output_webm` still carries
the path. -/
theorem claim_C5 (env : PvEnv) (v : Video) (inputVideo outputDir : String)
    (maxFrames : Option Nat)
    (hv : env.video = Except.ok v) (hw : env.writerOpens = true)
    (hpf : (processFrames env.seg
      (extractFrames v outputDir maxFrames).extracted_frames outputDir).2 = none) :
    ∃ r : PvResult,
      processVideo env inputVideo outputDir maxFrames true = Except.ok r ∧
      r.output_mp4 = pathJoin outputDir ("output_transparent.mp4") ∧
      (r.output_webm = none ↔
        (processFrames env.seg
          (extractFrames v outputDir maxFrames).extracted_frames outputDir).1 = []) := by
  have hok := processVideo_ok_spec env v hv inputVideo outputDir maxFrames true hw hpf
  refine ⟨_, hok, rfl, ?_⟩
  by_cases hemp : (processFrames env.seg
      (extractFrames v outputDir maxFrames).extracted_frames outputDir).1 = []
  · simp [hemp]
  · simp [hemp]

/-- Witness for C5 (amended) at the concrete environment whose `ffmpeg`
exits nonzero: the job still succeeds and, the processed list being
nonempty, `output_webm` is not reported absent. -/
theorem claim_C5_witness :
    demoEnvFfmpegFail.video = Except.ok demoVideo1 ∧
    ∃ r : PvResult,
      processVideo demoEnvFfmpegFail ("a.mp4") ("out") none true = Except.ok r ∧
      r.output_mp4 = pathJoin ("out") ("output_transparent.mp4") ∧
      (r.output_webm = none ↔
        (processFrames demoEnvFfmpegFail.seg
          (extractFrames demoVideo1 ("out") none).extracted_frames ("out")).1 = []) :=
  ⟨rfl, claim_C5 demoEnvFfmpegFail demoVideo1 ("a.mp4") ("out") none rfl rfl rfl⟩

/-- Counterexample for C5 as stated: with a nonzero `ffmpeg` exit status
(a failed transcode) the returned result still reports the alpha-true
output as present — `output_webm` is the WebM path, not null — because
`os.system`'s exit status is discarded. -/
theorem claim_C5_cex :
    demoEnvFfmpegFail.ffmpegExit = 1 ∧
    (processVideo demoEnvFfmpegFail ("a.mp4") ("out") none true).toOption.map
        PvResult.output_webm
      = some (some (pathJoin ("out") ("output_transparent.webm"))) :=
  ⟨rfl, rfl⟩

/-- C6: a failing job does not abort the batch. `process_single_video`
converts a raised error into a per-file failure record carrying status,
error message, name and timing; every per-file record has status
`"success"` or `"failed"`; on a non-empty discovery the batch appends
exactly one record per discovered file, in discovery order, to the
carried results list; and the success and failure counters partition the
results list. -/
theorem claim_C6 (envOf : String → PvEnv) (timeOf : String → Nat)
    (maxFrames : Option Nat) (st : List SingleResult) (dirFiles : List String)
    (outputDir : String) (createWebm : Bool) (extensions : Option (List String))
    (path : String) (e : String)
    (herr : processVideo (envOf path) path (pathJoin outputDir (pyStem path))
      maxFrames createWebm = Except.error e) :
    (processSingleVideo (envOf path) (timeOf path) maxFrames path outputDir createWebm
      = { status := ("failed"), error := some e, processing_time := timeOf path
          video_name := pyStem path, input_video := path
          output_dir := pathJoin outputDir (pyStem path), pv := none }) ∧
    (∀ (env2 : PvEnv) (t : Nat) (p : String),
      (processSingleVideo env2 t maxFrames p outputDir createWebm).status = ("success") ∨
      (processSingleVideo env2 t maxFrames p outputDir createWebm).status = ("failed")) ∧
    (findVideoFiles true dirFiles extensions ≠ [] →
      (processBatch envOf timeOf maxFrames st true dirFiles outputDir createWebm
          extensions).results
        = st ++ (findVideoFiles true dirFiles extensions).map
            (fun p => processSingleVideo (envOf p) (timeOf p) maxFrames p outputDir
              createWebm)) ∧
    (findVideoFiles true dirFiles extensions ≠ [] →
      (processBatch envOf timeOf maxFrames st true dirFiles outputDir createWebm
          extensions).success
        + (processBatch envOf timeOf maxFrames st true dirFiles outputDir createWebm
          extensions).failed
        = (processBatch envOf timeOf maxFrames st true dirFiles outputDir createWebm
          extensions).results.length) := by
  have hconv : processSingleVideo (envOf path) (timeOf path) maxFrames path outputDir
      createWebm
      = { status := ("failed"), error := some e, processing_time := timeOf path
          video_name := pyStem path, input_video := path
          output_dir := pathJoin outputDir (pyStem path), pv := none } := by
    simp [processSingleVideo, herr]
  have hbinary : ∀ (env2 : PvEnv) (t : Nat) (p : String),
      (processSingleVideo env2 t maxFrames p outputDir createWebm).status = ("success") ∨
      (processSingleVideo env2 t maxFrames p outputDir createWebm).status = ("failed") := by
    intro env2 t p
    cases h : processVideo env2 p (pathJoin outputDir (pyStem p)) maxFrames createWebm with
    | ok r => exact Or.inl (by simp [processSingleVideo, h])
    | error e2 => exact Or.inr (by simp [processSingleVideo, h])
  refine ⟨hconv, hbinary, ?_, ?_⟩ <;> intro hne <;>
    have hf : (findVideoFiles true dirFiles extensions).isEmpty = false := by
      cases hcase : findVideoFiles true dirFiles extensions with
      | nil => exact absurd hcase hne
      | cons a l => rfl
  · simp [processBatch, hf]
  · simp only [processBatch, hf, Bool.false_eq_true, if_false]
    have hle := List.length_filter_le
      (fun r => r.status == ("success"))
      (st ++ (findVideoFiles true dirFiles extensions).map
        (fun p => processSingleVideo (envOf p) (timeOf p) maxFrames p outputDir createWebm))
    omega

/-- Witness for C6: a batch of one unopenable video; the open error is
turned into a `"failed"` record with the stringified message, name and
timing. -/
theorem claim_C6_witness :
    processVideo demoEnvOpenFail ("bad.mp4") (pathJoin ("outb") (pyStem ("bad.mp4")))
        none true
      = Except.error (("cannot open video file: ") ++ ("bad.mp4")) ∧
    processSingleVideo demoEnvOpenFail 7 none ("bad.mp4") ("outb") true
      = { status := ("failed"), error := some (("cannot open video file: ") ++ ("bad.mp4"))
          processing_time := 7, video_name := pyStem ("bad.mp4")
          input_video := ("bad.mp4"), output_dir := pathJoin ("outb") (pyStem ("bad.mp4"))
          pv := none } :=
  ⟨rfl,
    (claim_C6 (fun _ => demoEnvOpenFail) (fun _ => 7) none [] [("bad.mp4")] ("outb") true
      none ("bad.mp4") (("cannot open video file: ") ++ ("bad.mp4")) rfl).1⟩

/-- C10: on a freshly constructed processor (empty carried results list)
whose discovery finds at least one file, the returned statistics satisfy
`success + failed = total`, `total` is the number of discovered files,
and the results list holds exactly one record per discovered file in
discovery order. -/
theorem claim_C10 (envOf : String → PvEnv) (timeOf : String → Nat)
    (maxFrames : Option Nat) (dirFiles : List String) (outputDir : String)
    (createWebm : Bool) (extensions : Option (List String))
    (hne : findVideoFiles true dirFiles extensions ≠ []) :
    ((processBatch envOf timeOf maxFrames [] true dirFiles outputDir createWebm
        extensions).total
      = (findVideoFiles true dirFiles extensions).length) ∧
    ((processBatch envOf timeOf maxFrames [] true dirFiles outputDir createWebm
        extensions).success
      + (processBatch envOf timeOf maxFrames [] true dirFiles outputDir createWebm
        extensions).failed
      = (processBatch envOf timeOf maxFrames [] true dirFiles outputDir createWebm
        extensions).total) ∧
    ((processBatch envOf timeOf maxFrames [] true dirFiles outputDir createWebm
        extensions).results
      = (findVideoFiles true dirFiles extensions).map
          (fun p => processSingleVideo (envOf p) (timeOf p) maxFrames p outputDir
            createWebm)) := by
  have hf : (findVideoFiles true dirFiles extensions).isEmpty = false := by
    cases hcase : findVideoFiles true dirFiles extensions with
    | nil => exact absurd hcase hne
    | cons a l => rfl
  refine ⟨by simp [processBatch, hf], ?_, by simp [processBatch, hf]⟩
  simp only [processBatch, hf, Bool.false_eq_true, if_false]
  have hle := List.length_filter_le
    (fun r => r.status == ("success"))
    (([] : List SingleResult) ++ (findVideoFiles true dirFiles extensions).map
      (fun p => processSingleVideo (envOf p) (timeOf p) maxFrames p outputDir createWebm))
  simp only [List.nil_append] at hle ⊢
  simp only [List.length_map] at hle ⊢
  omega

/-- Witness for C10: a fresh batch over a directory holding one `.mp4`
file (which fails to open) still counts it: `success + failed = total`. -/
theorem claim_C10_witness :
    findVideoFiles true [("a.mp4")] none ≠ [] ∧
    ((processBatch (fun _ => demoEnvOpenFail) (fun _ => 7) none [] true [("a.mp4")]
        ("outb") true none).success
      + (processBatch (fun _ => demoEnvOpenFail) (fun _ => 7) none [] true [("a.mp4")]
        ("outb") true none).failed
      = (processBatch (fun _ => demoEnvOpenFail) (fun _ => 7) none [] true [("a.mp4")]
        ("outb") true none).total) :=
  ⟨by decide,
    (claim_C10 (fun _ => demoEnvOpenFail) (fun _ => 7) none [("a.mp4")] ("outb") true none
      (by decide)).2.1⟩

set_option maxRecDepth 16000 in
set_option maxHeartbeats 4000000 in
/-- C7 (amended): the opaque-output flattening composites each colour
channel over a white backdrop in numpy float64 arithmetic —
`src * (a/255) + 255 * (1 - a/255)` with each operation rounded to the
nearest binary64 value — and stores the result into the `uint8` frame
buffer by truncation. Because of the float rounding the stored value is
not the exact real-valued composite: at `src = 1, a = 128` it stores 127
(composite `127.50...`), and at `src = 255, a = 123` it stores 254 even
though the exact composite is the integer 255 (the float lands one ulp
below it). At the endpoints the computation is exact: alpha 255 leaves
every `uint8` channel unchanged and alpha 0 yields pure white
`(255,255,255)`. -/
theorem claim_C7 (px : Fin 4 → Nat) :
    (∀ s, s < 256 → flattenChannel s 255 = s) ∧
    (∀ s, s < 256 → flattenChannel s 0 = 255) ∧
    (px 3 = 255 → (∀ c : Fin 3, px c.castSucc < 256) →
      ∀ c : Fin 3, flattenPixel px c = px c.castSucc) ∧
    (px 3 = 0 → (∀ c : Fin 3, px c.castSucc < 256) →
      ∀ c : Fin 3, flattenPixel px c = 255) ∧
    flattenChannel 1 128 = 127 ∧
    flattenChannel 255 123 = 254 := by
  have h255 : ∀ s, s < 256 → flattenChannel s 255 = s := by decide
  have h0 : ∀ s, s < 256 → flattenChannel s 0 = 255 := by decide
  refine ⟨h255, h0, ?_, ?_, by decide, by decide⟩
  · intro ha hb c
    have := h255 (px c.castSucc) (hb c)
    simpa [flattenPixel, ha] using this
  · intro ha hb c
    have := h0 (px c.castSucc) (hb c)
    simpa [flattenPixel, ha] using this

/-- Witness for C7 (amended) at concrete channels: a fully opaque
channel of value 7 is stored unchanged and a fully transparent channel
of value 7 is stored as white. -/
theorem claim_C7_witness :
    (7 < 256) ∧ flattenChannel 7 255 = 7 ∧ flattenChannel 7 0 = 255 :=
  ⟨by decide, (claim_C7 (fun _ => 0)).1 7 (by decide),
    (claim_C7 (fun _ => 0)).2.1 7 (by decide)⟩

set_option maxRecDepth 16000 in
set_option maxHeartbeats 1000000 in
/-- Counterexample for C7 as stated: the claim's per-channel equation
`out = src * (a/255) + 255 * (1 - a/255)` does not hold for the stored
`uint8` value: at `src = 1, a = 128` the code stores 127 while the
real-valued composite is `32513/255 = 127.50...` (and at
`src = 255, a = 123` it even stores 254 where the composite is exactly
255). The equation is exact only at the endpoints. -/
theorem claim_C7_cex :
    flattenChannel 1 128 = 127 ∧
    ¬ (((flattenChannel 1 128 : Nat) : ℚ)
        = (1 : ℚ) * ((128 : ℚ) / 255) + 255 * (1 - (128 : ℚ) / 255)) := by
  have h : flattenChannel 1 128 = 127 := by decide
  refine ⟨h, ?_⟩
  rw [h]
  norm_num

/-- C8: `find_video_files` returns a deduplicated, lexicographically
sorted list holding exactly the discovered paths that match some
extension of the filter (everything, trivially, is empty when the input
directory does not exist); and the result depends only on the set of
files listed, so any reordering of the directory enumeration — in
particular a second run over an unchanged tree — produces the identical
list in the identical order. -/
theorem claim_C8 (dirExists : Bool) (dirFiles dirFiles2 : List String)
    (exts : Option (List String)) :
    List.Sorted (fun a b => a ≤ b) (findVideoFiles dirExists dirFiles exts) ∧
    (findVideoFiles dirExists dirFiles exts).Nodup ∧
    (∀ x, x ∈ findVideoFiles dirExists dirFiles exts ↔
      (dirExists = true ∧ x ∈ dirFiles ∧
        ∃ ext, ext ∈ exts.getD defaultExtensions ∧ strEndsWith x ext = true)) ∧
    (dirFiles.Perm dirFiles2 →
      findVideoFiles dirExists dirFiles2 exts = findVideoFiles dirExists dirFiles exts) := by
  cases dirExists with
  | false => simp [findVideoFiles]
  | true =>
    have hfun : ∀ files : List String, findVideoFiles true files exts
        = List.insertionSort (fun a b => a ≤ b)
            (((exts.getD defaultExtensions).foldl
              (fun a ext => a ++ files.filter (fun f => strEndsWith f ext)) []).dedup) := by
      intro files
      simp [findVideoFiles]
    have hsorted : ∀ files : List String,
        List.Sorted (fun a b => a ≤ b) (findVideoFiles true files exts) := by
      intro files
      rw [hfun files]
      exact List.sorted_insertionSort (fun a b => a ≤ b) _
    refine ⟨hsorted dirFiles, ?_, ?_, ?_⟩
    · rw [hfun dirFiles]
      exact ((List.perm_insertionSort (fun a b => a ≤ b) _).nodup_iff).mpr
        (List.nodup_dedup _)
    · intro x
      rw [hfun dirFiles]
      rw [(List.perm_insertionSort (fun a b => a ≤ b) _).mem_iff, List.mem_dedup,
        mem_collectExts]
      simp
      tauto
    · intro hperm
      have hcoll : (((exts.getD defaultExtensions).foldl
            (fun a ext => a ++ dirFiles2.filter (fun f => strEndsWith f ext)) []).dedup).Perm
          (((exts.getD defaultExtensions).foldl
            (fun a ext => a ++ dirFiles.filter (fun f => strEndsWith f ext)) []).dedup) :=
        (collectExts_perm (exts.getD defaultExtensions) dirFiles2 dirFiles [] []
          hperm.symm (List.Perm.refl [])).dedup
      have hp : (findVideoFiles true dirFiles2 exts).Perm
          (findVideoFiles true dirFiles exts) := by
        rw [hfun dirFiles, hfun dirFiles2]
        exact (List.perm_insertionSort (fun a b => a ≤ b) _).trans
          (hcoll.trans (List.perm_insertionSort (fun a b => a ≤ b) _).symm)
      exact List.eq_of_perm_of_sorted hp (hsorted dirFiles2) (hsorted dirFiles)

/-- Witness for C8: two enumeration orders of the same two files produce
the identical sorted, deduplicated discovery list. -/
theorem claim_C8_witness :
    ([("b.mp4"), ("a.avi")] : List String).Perm [("a.avi"), ("b.mp4")] ∧
    findVideoFiles true [("a.avi"), ("b.mp4")] none
      = findVideoFiles true [("b.mp4"), ("a.avi")] none :=
  ⟨by decide,
    (claim_C8 true [("b.mp4"), ("a.avi")] [("a.avi"), ("b.mp4")] none).2.2.2 (by decide)⟩

/-- C9: the GUI stop action only flips the `processing` flag and the
progress label; neither `process_video_thread` nor the `process_frames`
loop ever consults the flag, so the number of frames processed is
independent of any stop request: with the flag already false before the
first frame boundary, all 3 frames of the demo job are still processed,
where the claim predicts at most the one in flight. The source itself
notes (gui_app.py line 320) that the actual stop logic remains to be
implemented in the processing thread. -/
theorem claim_C9 :
    framesProcessedUnderFlag (fun _ => false) demoSeg demoFrames3 ("out") = 3 ∧
    (∀ flagA flagB : Nat → Bool,
      framesProcessedUnderFlag flagA demoSeg demoFrames3 ("out")
        = framesProcessedUnderFlag flagB demoSeg demoFrames3 ("out")) ∧
    (stopProcessing { processing := true, progressText := ("running") }).processing
      = false :=
  ⟨rfl, fun _ _ => rfl, rfl⟩
